import Mathlib

/-
Verification of `guiqwt/qthelpers.py` (ready-to-use image open/save dialogs).

The module under study is glue code around external collaborators: the Qt
file dialogs (`getsavefilename`, `getopenfilename`, `getopenfilenames`), the
image I/O layer (`io.imread`, `io.imwrite`), the filesystem (`osp.isfile`),
the translation function `_` from `guiqwt.config`, and the parameter-entry
forms built on `guidata` DataSets.  All of these are modelled as oracles:
record fields supplying the value each external call returns.  The three
functions of the module are translated statement by statement into pure Lean
functions from such an oracle (plus the Python arguments) to a result record
that captures the returned value, the external calls made (with their
arguments), the critical message boxes shown, and the states of the
`sys.stdin` / `sys.stdout` / `sys.stderr` triple at the dialog call, right
after it, and at function return.

Python string helpers (`os.path.splitext`, `os.path.basename`, `str.lower`,
`"%s ..." % arg`) are implemented faithfully below over lists of characters.
-/

/-- Abstract state of the `(sys.stdin, sys.stdout, sys.stderr)` triple.
Stream objects are abstracted to `Option Nat` handles; `none` is Python's
`None` (the value `exec_image_save_dialog` and friends assign to
`sys.stdout` around the dialog call). -/
structure Streams where
  stdin : Option Nat
  stdout : Option Nat
  stderr : Option Nat
deriving DecidableEq

/-- A critical message box event: `(title, text)` as passed to
`QMessageBox.critical(parent, title, text)`. -/
abbrev MsgBox := String × String

/-- The slice of a numpy array visible to `exec_image_save_dialog`:
its `dtype.str` (e.g. `"<f8"`) and an identity handle for the pixel data,
so that "imwrite was called with the given data array" is expressible. -/
structure NDArray where
  dtypeStr : String
  id : Nat
deriving DecidableEq

/-- Python `str.lower` (ASCII-relevant part), as applied to file extensions. -/
def lowerStr (s : String) : String := String.mk (s.toList.map Char.toLower)

/-- Split a character list at its LAST dot: `some (before, fromDot)`, or
`none` when no dot occurs.  Helper for `splitext`. -/
def splitLastDot : List Char → Option (List Char × List Char)
  | [] => none
  | c :: cs =>
    match splitLastDot cs with
    | some (a, b) => some (c :: a, b)
    | none => if c = '.' then some ([], '.' :: cs) else none

/-- Split a path's characters into `(directory part including the final
separator, basename part)`, separating at the last `'/'`. -/
def splitBase : List Char → List Char × List Char
  | [] => ([], [])
  | c :: cs =>
    match splitBase cs with
    | ([], b) => if c = '/' then ([c], b) else ([], c :: b)
    | (d, b) => (c :: d, b)

/-- Python `os.path.splitext` (posixpath): split off the extension at the
last dot of the basename, except when every character of the basename before
that dot is itself a dot (so `".bashrc"` has no extension). -/
def splitext (p : String) : String × String :=
  let (d, base) := splitBase p.toList
  match splitLastDot base with
  | some (a, b) =>
    if a.any (fun c => c ≠ '.') then (String.mk (d ++ a), String.mk b) else (p, "")
  | none => (p, "")

/-- Python `os.path.basename`: the suffix after the last `'/'`. -/
def basename (p : String) : String :=
  String.mk ((p.toList.reverse.takeWhile (fun c => c ≠ '/')).reverse)

/-- Python `"..%s.." % arg` formatting for the one-placeholder templates used
by the module: replace the first occurrence of `%s` with `arg`. -/
def percentS : List Char → String → String
  | [], _ => ""
  | '%' :: 's' :: rest, arg => arg ++ String.mk rest
  | c :: rest, arg => String.singleton c ++ percentS rest arg

/-- Title of the critical message boxes:
`_("Error") if app_name is None else app_name`.  `tr` is the translation
function `_` imported from `guiqwt.config` (an external collaborator,
abstracted as an oracle field). -/
def errTitle (tr : String → String) (app_name : Option String) : String :=
  match app_name with
  | none => tr "Error"
  | some s => s

/-- The message box shown by `exec_image_save_dialog`'s `except` handler:
`(_("%s could not be written:") % osp.basename(filename)) + "\n" + str(msg)`. -/
def saveErrBox (tr : String → String) (app_name : Option String)
    (filename msg : String) : MsgBox :=
  (errTitle tr app_name,
   percentS (tr "%s could not be written:").toList (basename filename)
     ++ "\n" ++ msg)

/-- The message box shown by the two open-dialog functions:
`(_("%s could not be opened:") % osp.basename(filename)) + "\n" + str(msg)`. -/
def openErrBox (tr : String → String) (app_name : Option String)
    (filename msg : String) : MsgBox :=
  (errTitle tr app_name,
   percentS (tr "%s could not be opened:").toList (basename filename)
     ++ "\n" ++ msg)

/-- `str(msg)` of the `NameError` raised when the `try` block of
`exec_image_save_dialog` evaluates the never-assigned local name `ext`. -/
def nameErrText : String := "name \x27ext\x27 is not defined"

/-- Arguments of one `io.imwrite` call made by `exec_image_save_dialog`:
the filename, the identity of the `data` array, and the optional `template`
keyword argument (`some t` when `kwargs["template"] = template` was set,
`none` when `kwargs` stayed empty).  On the only reachable `io.imwrite`
call site no `max_range` / `dtype` keywords are passed (the branch passing
them is unreachable, see `exec_image_save_dialog`). -/
structure ImwriteArgs where
  filename : String
  dataId : Nat
  templateKw : Option (Option Nat)
deriving DecidableEq

/-- Oracle for one run of `exec_image_save_dialog`: the entry state of the
`sys` streams, the translation function, the behaviour of the two possible
`getsavefilename` calls (the first may raise `TypeError`, in which case the
call is retried with an empty `basedir`), and the outcome of an `io.imwrite`
call on given arguments (`none` = success, `some msg` = exception with
`str(msg) = msg`). -/
structure SaveOracle where
  streams : Streams
  tr : String → String
  dialogTypeError : Bool
  filename1 : String
  filename2 : String
  imwriteExc : String → Nat → Option (Option Nat) → Option String

/-- The filename produced by the dialog section of `exec_image_save_dialog`
(empty string when the user cancels): the first `getsavefilename` result,
or the retry's result when the first call raised `TypeError`. -/
def saveDialogFilename (o : SaveOracle) : String :=
  if o.dialogTypeError then o.filename2 else o.filename1

/-- Observable outcome of one `exec_image_save_dialog` run. -/
structure SaveResult where
  result : Option String
  imwriteCalls : List ImwriteArgs
  msgboxes : List MsgBox
  streamsAtDialog : Streams
  streamsAfterDialog : Streams
  streamsAtReturn : Streams

/-- The `kwargs` dict built before the `try` block:
`{"template": template}` when `osp.splitext(filename)[1].lower() == ".dcm"`,
else `{}`. -/
def saveKwargs (filename : String) (template : Option Nat) : Option (Option Nat) :=
  if lowerStr (splitext filename).2 = ".dcm" then some template else none

/-- Shallow embedding of `guiqwt.qthelpers.exec_image_save_dialog`.
`parent`, `basedir` and the filter string only feed the dialog call, whose
result the oracle supplies, so they are absorbed into the oracle.

Faithful points of the translation:
* `convert` is `True` exactly when `data.dtype.str` is `'<f8'` or `'<f4'`
  (the local `dt` assigned beside it is only ever read in unreachable code,
  so it is not modelled);
* the streams: all three are saved on entry, `sys.stdout` is set to `None`,
  and both the `try` path and the `except TypeError` path restore the saved
  triple immediately after their `getsavefilename` call;
* `if filename:` — the empty string is falsy, so a cancelled dialog falls
  through and returns `None` with no further calls;
* inside the `try`: the condition `convert == False or ext == ".txt" or ...`
  short-circuits to the plain `io.imwrite(filename, data, **kwargs)` call
  when `convert` is `False`; when `convert` is `True` it evaluates the local
  name `ext`, which is never assigned in this function, so a `NameError` is
  raised and caught by `except Exception`, which shows the critical box and
  returns `None` — the `else` branch passing `max_range`/`dtype` is
  unreachable. -/
def exec_image_save_dialog (o : SaveOracle) (data : NDArray)
    (template : Option Nat) (app_name : Option String) : SaveResult :=
  let saved := o.streams
  let atDialog : Streams := { saved with stdout := none }
  let convert : Bool := data.dtypeStr == "<f8" || data.dtypeStr == "<f4"
  let filename := saveDialogFilename o
  let core : Option String × List ImwriteArgs × List MsgBox :=
    if filename = "" then (none, [], [])
    else
      let kw := saveKwargs filename template
      if convert then
        (none, [], [saveErrBox o.tr app_name filename nameErrText])
      else
        match o.imwriteExc filename data.id kw with
        | none => (some filename, [⟨filename, data.id, kw⟩], [])
        | some msg =>
          (none, [⟨filename, data.id, kw⟩], [saveErrBox o.tr app_name filename msg])
  { result := core.1
    imwriteCalls := core.2.1
    msgboxes := core.2.2
    streamsAtDialog := atDialog
    streamsAfterDialog := saved
    streamsAtReturn := saved }

/-- Oracle for one run of `exec_image_open_dialog`: entry streams,
translation function, the `getopenfilename` result (empty string on cancel),
and the outcome of `io.imread(filename, to_grayscale=tg)` (`Except.ok` with a
data handle, or `Except.error` with `str(msg)`). -/
structure OpenOracle where
  streams : Streams
  tr : String → String
  filename : String
  imread : String → Bool → Except String Nat

/-- Observable outcome of one `exec_image_open_dialog` run.  Each imread
call is recorded as `(filename, to_grayscale)`. -/
structure OpenResult where
  result : Option (String × Nat)
  imreadCalls : List (String × Bool)
  msgboxes : List MsgBox
  streamsAtDialog : Streams
  streamsAfterDialog : Streams
  streamsAtReturn : Streams

/-- Shallow embedding of `guiqwt.qthelpers.exec_image_open_dialog`.
The function saves the streams, nulls `sys.stdout`, runs the dialog,
restores the streams, coerces the filename with `str` (identity here), and
then calls `io.imread` unconditionally — there is no emptiness check, so a
cancelled dialog still reaches `io.imread("")`.  On success it returns
`(filename, data)`; on exception it shows the critical box and returns
`None`. -/
def exec_image_open_dialog (o : OpenOracle) (app_name : Option String)
    (to_grayscale : Bool) : OpenResult :=
  let saved := o.streams
  let atDialog : Streams := { saved with stdout := none }
  let filename := o.filename
  let core : Option (String × Nat) × List (String × Bool) × List MsgBox :=
    match o.imread filename to_grayscale with
    | Except.ok d => (some (filename, d), [(filename, to_grayscale)], [])
    | Except.error msg =>
      (none, [(filename, to_grayscale)], [openErrBox o.tr app_name filename msg])
  { result := core.1
    imreadCalls := core.2.1
    msgboxes := core.2.2
    streamsAtDialog := atDialog
    streamsAfterDialog := saved
    streamsAtReturn := saved }

/-- Values read off an accepted raw-parameter form (`OpenParam` /
`nOpenParam` DataSet): the chosen dtype name, the chosen offset mode,
and the three switches.  `one4all` exists only on the multi-file form
`nOpenParam`; the single-file form `OpenParam` never reads it. -/
structure FormVals where
  dtype : String
  mode : String
  endian_switch : Bool
  manual_switch : Bool
  m_offset : Int
  one4all : Bool
deriving DecidableEq

/-- The `offset` entry of the params dict: the manual integer offset when
`manual_switch` is `True`, else the chosen mode string. -/
inductive OffsetVal where
  | manual (v : Int)
  | mode (s : String)
deriving DecidableEq

/-- A numpy dtype as the module manipulates it: the name passed to
`np.dtype(...)` and whether `newbyteorder()` has been applied to swap the
byte order away from native. -/
structure NpDtypeV where
  name : String
  swapped : Bool
deriving DecidableEq

/-- The params dict `{'offset': offset, 'dtype': dtype}` built from an
accepted form. -/
structure RawParams where
  offset : OffsetVal
  dtype : NpDtypeV
deriving DecidableEq

/-- Translation of the form-to-params block that follows every accepted
`param.edit()` in `exec_images_open_dialog`:
`offset = param.m_offset if param.manual_switch else param.mode`;
`dtype = np.dtype(param.dtype)`, byte order swapped via `newbyteorder()`
exactly when `param.endian_switch == False`. -/
def paramsOfForm (f : FormVals) : RawParams :=
  { offset := if f.manual_switch then OffsetVal.manual f.m_offset else OffsetVal.mode f.mode
    dtype := { name := f.dtype, swapped := !f.endian_switch } }

/-- One `io.imread(filename, to_grayscale=tg, params=params)` call made by
`exec_images_open_dialog`.  `params = none` models the empty dict `{}`. -/
structure ImreadCall where
  filename : String
  to_gray : Bool
  params : Option RawParams
deriving DecidableEq

/-- Why a run of `exec_images_open_dialog` stopped yielding: the loop ran
through all files, a raw-parameter form was cancelled (`param.edit()`
returned falsy, code path `return`), or `io.imread` raised on a file. -/
inductive StopReason where
  | completed
  | formCancelled
  | readError (filename : String) (msg : String)
deriving DecidableEq

/-- Accumulated observable behaviour of the per-file loop of
`exec_images_open_dialog`: pairs yielded, imread calls made, number of
raw-parameter forms presented (accepted or cancelled), message boxes shown,
and the stop reason. -/
structure LoopOut where
  yielded : List (String × Nat)
  calls : List ImreadCall
  formsCount : Nat
  msgboxes : List MsgBox
  reason : StopReason
deriving DecidableEq

/-- Oracle for one run of `exec_images_open_dialog`: entry streams,
translation function, the `getopenfilenames` selection (already mapped
through `str`), the filesystem's `osp.isfile`, the outcome of the n-th
raw-parameter form presentation (`none` = dialog cancelled, `some f` =
accepted with values `f`), and the outcome of each
`io.imread(filename, to_grayscale, params)` call. -/
structure MultiOracle where
  streams : Streams
  tr : String → String
  filenames : List String
  isfile : String → Bool
  forms : Nat → Option FormVals
  imread : String → Bool → Option RawParams → Except String Nat

/-- Observable outcome of one `exec_images_open_dialog` run. -/
structure MultiResult where
  yielded : List (String × Nat)
  calls : List ImreadCall
  formsCount : Nat
  msgboxes : List MsgBox
  reason : StopReason
  streamsAtDialog : Streams
  streamsAfterDialog : Streams
  streamsAtReturn : Streams

/-- The `for filename in filenames:` loop of `exec_images_open_dialog`.
State threaded through iterations: `params` (`none` models the empty dict),
`one4all`, and `fc`, the index of the next form presentation in the oracle.
`RAW` was computed once before the loop from the FIRST selected file and is
never recomputed; `multi` is `len(filenames) > 1`, also about the full
selection (the in-loop `osp.splitext(filename)` result is never read, so it
is not modelled).  Per iteration, inside the `try`: when
`RAW and (params == {} or not one4all)` a form is presented — cancelling it
returns from the generator; accepting it updates `one4all` (multi-file form
only) and rebuilds `params` via `paramsOfForm`.  Then `io.imread` runs with
the current params: an exception shows the critical box and returns; success
yields `(filename, data)` and continues. -/
def imagesLoop (o : MultiOracle) (app_name : Option String) (tg : Bool)
    (RAW multi : Bool) :
    List String → Option RawParams → Bool → Nat → LoopOut
  | [], _, _, _ => ⟨[], [], 0, [], StopReason.completed⟩
  | fn :: rest, params, one4all, fc =>
    if RAW && (params.isNone || !one4all) then
      match o.forms fc with
      | none => ⟨[], [], 1, [], StopReason.formCancelled⟩
      | some f =>
        let one4all2 := if multi then f.one4all else one4all
        let params2 := some (paramsOfForm f)
        match o.imread fn tg params2 with
        | Except.error msg =>
          ⟨[], [⟨fn, tg, params2⟩], 1, [openErrBox o.tr app_name fn msg],
           StopReason.readError fn msg⟩
        | Except.ok d =>
          let r := imagesLoop o app_name tg RAW multi rest params2 one4all2 (fc + 1)
          ⟨(fn, d) :: r.yielded, ⟨fn, tg, params2⟩ :: r.calls, 1 + r.formsCount,
           r.msgboxes, r.reason⟩
    else
      match o.imread fn tg params with
      | Except.error msg =>
        ⟨[], [⟨fn, tg, params⟩], 0, [openErrBox o.tr app_name fn msg],
         StopReason.readError fn msg⟩
      | Except.ok d =>
        let r := imagesLoop o app_name tg RAW multi rest params one4all fc
        ⟨(fn, d) :: r.yielded, ⟨fn, tg, params⟩ :: r.calls, r.formsCount,
         r.msgboxes, r.reason⟩

/-- Pre-loop seeding plus the per-file loop of `exec_images_open_dialog`,
for an already-computed RAW decision and `multi = (len(filenames) > 1)`
flag.  When `RAW` holds and more than one file was selected, one
`nOpenParam` form is presented up front (presentation index 0): cancelling
it returns from the generator immediately; accepting it seeds
`params`/`one4all` for the loop (and counts as one presented form).
Otherwise the loop starts with the empty params dict and `one4all = False`,
exactly as the source initialises them. -/
def imagesPre (o : MultiOracle) (app_name : Option String) (tg : Bool)
    (RAW multi : Bool) (fns : List String) : LoopOut :=
  if RAW && multi then
    match o.forms 0 with
    | none => ⟨[], [], 1, [], StopReason.formCancelled⟩
    | some f =>
      let r := imagesLoop o app_name tg RAW multi fns (some (paramsOfForm f)) f.one4all 1
      ⟨r.yielded, r.calls, 1 + r.formsCount, r.msgboxes, r.reason⟩
  else
    imagesLoop o app_name tg RAW multi fns none false 0

/-- Shallow embedding of `guiqwt.qthelpers.exec_images_open_dialog`
(a generator; its observable behaviour over a whole run is returned).

Before the loop, when the selection is non-empty: `RAW` is decided from the
first filename only — its extension must be `.bin`/`.raw`/`.img`/`.imd` and
no companion `<base>.inf` file may exist — and is never recomputed.  The
pre-loop form and the loop itself are `imagesPre`/`imagesLoop`.  An empty
selection skips both the pre-loop block and the loop body, so the generator
yields nothing. -/
def exec_images_open_dialog (o : MultiOracle) (app_name : Option String)
    (to_grayscale : Bool) : MultiResult :=
  let saved := o.streams
  let atDialog : Streams := { saved with stdout := none }
  let core : LoopOut :=
    match o.filenames with
    | [] => ⟨[], [], 0, [], StopReason.completed⟩
    | fn0 :: _ =>
      let be := splitext fn0
      let RAW : Bool :=
        if be.2 == ".bin" || be.2 == ".raw" || be.2 == ".img" || be.2 == ".imd" then
          !(o.isfile (be.1 ++ ".inf"))
        else
          false
      imagesPre o app_name to_grayscale RAW
        (decide (1 < o.filenames.length)) o.filenames
  { yielded := core.yielded
    calls := core.calls
    formsCount := core.formsCount
    msgboxes := core.msgboxes
    reason := core.reason
    streamsAtDialog := atDialog
    streamsAfterDialog := saved
    streamsAtReturn := saved }

/-- Condition of claim C6, written from the claim's words: at least one file
was selected, the extension of the FIRST selected filename is `.bin`,
`.raw`, `.img` or `.imd`, and no file named like that first file with the
`.inf` extension exists. -/
def rawFormCond (o : MultiOracle) : Bool :=
  match o.filenames with
  | [] => false
  | fn0 :: _ =>
    ((splitext fn0).2 == ".bin" || (splitext fn0).2 == ".raw" ||
     (splitext fn0).2 == ".img" || (splitext fn0).2 == ".imd")
    && !(o.isfile ((splitext fn0).1 ++ ".inf"))

/-- Sample oracle for the single-open dialog: `"c.png"` chosen, read
succeeding with data handle 7. -/
def oOpenOk : OpenOracle :=
  ⟨⟨some 0, some 1, some 2⟩, fun s => s, "c.png",
   fun fn _ => if fn = "c.png" then Except.ok 7 else Except.error "bad"⟩

/-- Sample oracle for the single-open dialog: dialog cancelled (empty
filename), `io.imread` raising on the empty string. -/
def oOpenCancel : OpenOracle :=
  ⟨⟨some 0, some 1, some 2⟩, fun s => s, "",
   fun fn _ => if fn = "" then Except.error "No such file" else Except.ok 7⟩

/-- The loop-observable part of a `MultiResult`. -/
def loopView (r : MultiResult) : LoopOut :=
  ⟨r.yielded, r.calls, r.formsCount, r.msgboxes, r.reason⟩

/-- Specification of the yielding behaviour claimed by C5, for a run over
the selection `fns`: the yielded filenames are exactly an initial segment of
`fns` in selection order; every yielded data value came from a successful
`io.imread` of its filename; a run that stopped for neither a cancelled form
nor a read error yielded one pair per selected file; and a run stopped by a
read error showed exactly the one critical box for the failing file and
yielded strictly fewer pairs than there are files. -/
def loopSpec (o : MultiOracle) (app_name : Option String) (tg : Bool)
    (fns : List String) (r : LoopOut) : Prop :=
  r.yielded.map Prod.fst = fns.take r.yielded.length
  ∧ (∀ pr ∈ r.yielded, ∃ q, o.imread pr.1 tg q = Except.ok pr.2)
  ∧ (r.reason = StopReason.completed → r.yielded.length = fns.length)
  ∧ (∀ fn msg, r.reason = StopReason.readError fn msg →
      r.msgboxes = [openErrBox o.tr app_name fn msg]
      ∧ r.yielded.length < fns.length)

/-- Sample oracle for the multi-open dialog: two non-raw files selected,
both reads succeeding. -/
def oMultiPng : MultiOracle :=
  ⟨⟨some 0, some 1, some 2⟩, fun s => s, ["x.png", "y.png"], fun _ => false,
   fun _ => none, fun fn _ _ => if fn = "x.png" then Except.ok 11 else Except.ok 22⟩

/-- Sample oracle for the multi-open dialog: two `.bin` files with no
companion `.inf` file, every form accepted with a manual offset of 7,
little-endian order, dtype `uint16` and "one parameter for all"; both reads
succeeding. -/
def oMultiRaw : MultiOracle :=
  ⟨⟨some 0, some 1, some 2⟩, fun s => s, ["a.bin", "b.bin"], fun _ => false,
   fun _ => some ⟨"uint16", "from_end", true, true, 7, true⟩,
   fun fn _ _ => if fn = "a.bin" then Except.ok 11 else Except.ok 22⟩


/-- Sample oracle: dialog accepted with `"a.png"`, `io.imwrite` succeeding. -/
def oSaveOk : SaveOracle :=
  ⟨⟨some 0, some 1, some 2⟩, fun s => s, false, "a.png", "", fun _ _ _ => none⟩

/-- Sample oracle: dialog accepted with `"b.png"`, `io.imwrite` raising
an exception whose `str` is `"boom"`. -/
def oSaveErr : SaveOracle :=
  ⟨⟨some 0, some 1, some 2⟩, fun s => s, false, "b.png", "", fun _ _ _ => some "boom"⟩

/-- Sample oracle: dialog accepted with `"scan.DCM"`, `io.imwrite`
succeeding. -/
def oSaveDcm : SaveOracle :=
  ⟨⟨some 0, some 1, some 2⟩, fun s => s, false, "scan.DCM", "", fun _ _ _ => none⟩

/-- C1: evaluation of `exec_image_save_dialog` at the failing input — dialog
accepted with the non-empty filename `"a.png"`, data of dtype `'<f8'`, and
an `io.imwrite` that would succeed on any arguments.  The run makes NO
`io.imwrite` call, returns `None` instead of the filename, and shows the
critical box for the `NameError` on the unbound local `ext` — contradicting
both the claim and the function's own docstring ("Returns filename if dialog
is accepted, None otherwise"). -/
theorem C1_float_write_skipped :
    saveDialogFilename oSaveOk = "a.png"
    ∧ oSaveOk.imwriteExc "a.png" 5 none = none
    ∧ (exec_image_save_dialog oSaveOk ⟨"<f8", 5⟩ none none).imwriteCalls = []
    ∧ (exec_image_save_dialog oSaveOk ⟨"<f8", 5⟩ none none).result = none
    ∧ (exec_image_save_dialog oSaveOk ⟨"<f8", 5⟩ none none).msgboxes =
        [saveErrBox oSaveOk.tr none "a.png" nameErrText] :=
  ⟨rfl, rfl, rfl, rfl, rfl⟩

/-- C2: when `data.dtype.str` is `'<f4'` or `'<f8'` and the save dialog is
accepted with a non-empty filename, `io.imwrite` is never called, the
critical message box is shown with the `NameError` text for the
never-assigned local name `ext`, and the function returns `None`. -/
theorem C2_float_dtype_name_error (o : SaveOracle) (data : NDArray)
    (template : Option Nat) (app_name : Option String)
    (hd : data.dtypeStr = "<f4" ∨ data.dtypeStr = "<f8")
    (hf : saveDialogFilename o ≠ "") :
    (exec_image_save_dialog o data template app_name).imwriteCalls = []
    ∧ (exec_image_save_dialog o data template app_name).result = none
    ∧ (exec_image_save_dialog o data template app_name).msgboxes =
        [saveErrBox o.tr app_name (saveDialogFilename o) nameErrText] := by
  have hc : (data.dtypeStr == "<f8" || data.dtypeStr == "<f4") = true := by
    rcases hd with h | h <;> simp [h]
  unfold exec_image_save_dialog
  simp [hf, hc]

/-- C2 witness: the theorem applied at a concrete float32 array and an
accepted dialog. -/
theorem C2_float_dtype_name_error_w :
    (exec_image_save_dialog oSaveOk ⟨"<f4", 3⟩ none none).imwriteCalls = []
    ∧ (exec_image_save_dialog oSaveOk ⟨"<f4", 3⟩ none none).result = none
    ∧ (exec_image_save_dialog oSaveOk ⟨"<f4", 3⟩ none none).msgboxes =
        [saveErrBox oSaveOk.tr none "a.png" nameErrText] :=
  C2_float_dtype_name_error oSaveOk ⟨"<f4", 3⟩ none none (Or.inl rfl) (by decide)

/-- C3: when the dialog is accepted with a non-empty filename, the write is
attempted (dtype not little-endian float) and `io.imwrite` raises, the
function shows one critical box — titled `app_name`, or the translated
`"Error"` when `app_name` is `None`, with a text naming the file's basename
(see `saveErrBox`/`errTitle`) — and returns `None`. -/
theorem C3_save_error_box (o : SaveOracle) (data : NDArray)
    (template : Option Nat) (app_name : Option String) (msg : String)
    (hf : saveDialogFilename o ≠ "")
    (h4 : data.dtypeStr ≠ "<f4") (h8 : data.dtypeStr ≠ "<f8")
    (hw : o.imwriteExc (saveDialogFilename o) data.id
            (saveKwargs (saveDialogFilename o) template) = some msg) :
    (exec_image_save_dialog o data template app_name).msgboxes =
        [saveErrBox o.tr app_name (saveDialogFilename o) msg]
    ∧ (exec_image_save_dialog o data template app_name).result = none := by
  have hc : (data.dtypeStr == "<f8" || data.dtypeStr == "<f4") = false := by
    simp [h4, h8]
  unfold exec_image_save_dialog
  simp [hf, hc, hw]

/-- C3 witness: the theorem applied at a concrete uint8 array, app name
`"MyApp"`, and an `io.imwrite` raising `"boom"`. -/
theorem C3_save_error_box_w :
    (exec_image_save_dialog oSaveErr ⟨"|u1", 2⟩ none (some "MyApp")).msgboxes =
        [saveErrBox oSaveErr.tr (some "MyApp") "b.png" "boom"]
    ∧ (exec_image_save_dialog oSaveErr ⟨"|u1", 2⟩ none (some "MyApp")).result = none :=
  C3_save_error_box oSaveErr ⟨"|u1", 2⟩ none (some "MyApp") "boom"
    (by decide) (by decide) (by decide) rfl

/-- C8: every `io.imwrite` call made by `exec_image_save_dialog` carries the
`template` keyword argument if and only if the written filename's extension,
lowercased, equals `".dcm"`. -/
theorem C8_template_iff_dcm (o : SaveOracle) (data : NDArray)
    (template : Option Nat) (app_name : Option String) (c : ImwriteArgs)
    (hc : c ∈ (exec_image_save_dialog o data template app_name).imwriteCalls) :
    c.templateKw = some template ↔ lowerStr (splitext c.filename).2 = ".dcm" := by
  unfold exec_image_save_dialog at hc
  by_cases hf : saveDialogFilename o = ""
  · simp [hf] at hc
  · by_cases hcv : (data.dtypeStr == "<f8" || data.dtypeStr == "<f4") = true
    · simp [hf, hcv] at hc
    · rcases hw : o.imwriteExc (saveDialogFilename o) data.id
          (saveKwargs (saveDialogFilename o) template) with _ | msg
      all_goals
        simp [hf, hcv, hw] at hc
        subst hc
        show saveKwargs (saveDialogFilename o) template = some template ↔ _
        unfold saveKwargs
        split
        next h => simp [h]
        next h => simp [h]

/-- C8 witness: the theorem applied at a run writing `"scan.DCM"` (uppercase
extension, exercising the lowercasing) with a template dataset present. -/
theorem C8_template_iff_dcm_w :
    (⟨"scan.DCM", 9, some (some 4)⟩ : ImwriteArgs).templateKw = some (some 4)
    ↔ lowerStr (splitext "scan.DCM").2 = ".dcm" :=
  C8_template_iff_dcm oSaveDcm ⟨"|u1", 9⟩ (some 4) none
    ⟨"scan.DCM", 9, some (some 4)⟩ (by decide)

/-- C4: `exec_image_open_dialog` returns `(filename, data)` when
`io.imread` on the chosen filename succeeds with `data`; when `io.imread`
raises it shows one critical box — titled `app_name`, or the translated
`"Error"` when `app_name` is `None` (see `openErrBox`/`errTitle`) — and
returns `None`. -/
theorem C4_open_result (o : OpenOracle) (app_name : Option String)
    (to_grayscale : Bool) :
    (∀ d, o.imread o.filename to_grayscale = Except.ok d →
      (exec_image_open_dialog o app_name to_grayscale).result = some (o.filename, d))
    ∧ (∀ msg, o.imread o.filename to_grayscale = Except.error msg →
      (exec_image_open_dialog o app_name to_grayscale).result = none
      ∧ (exec_image_open_dialog o app_name to_grayscale).msgboxes =
          [openErrBox o.tr app_name o.filename msg]) := by
  constructor
  · intro d hd
    unfold exec_image_open_dialog
    simp [hd]
  · intro msg hm
    unfold exec_image_open_dialog
    simp [hm]

/-- C4 witness: the success half of the theorem applied at a concrete
oracle whose read of `"c.png"` yields data handle 7. -/
theorem C4_open_result_w :
    (exec_image_open_dialog oOpenOk none true).result = some ("c.png", 7) :=
  (C4_open_result oOpenOk none true).1 7 rfl

/-- C9: a cancelled open dialog yields the empty filename, and
`exec_image_open_dialog` still calls `io.imread` on the empty string (there
is no early return); when that read raises, the function takes the ordinary
failure path — one critical box shown, `None` returned — rather than
returning `None` silently. -/
theorem C9_cancel_reads_empty (o : OpenOracle) (app_name : Option String)
    (to_grayscale : Bool) (msg : String)
    (hf : o.filename = "")
    (hm : o.imread "" to_grayscale = Except.error msg) :
    (exec_image_open_dialog o app_name to_grayscale).imreadCalls = [("", to_grayscale)]
    ∧ (exec_image_open_dialog o app_name to_grayscale).result = none
    ∧ (exec_image_open_dialog o app_name to_grayscale).msgboxes =
        [openErrBox o.tr app_name "" msg] := by
  unfold exec_image_open_dialog
  simp [hf, hm]

/-- C9 witness: the theorem applied at a concrete cancelled dialog whose
read of `""` raises `"No such file"`. -/
theorem C9_cancel_reads_empty_w :
    (exec_image_open_dialog oOpenCancel none true).imreadCalls = [("", true)]
    ∧ (exec_image_open_dialog oOpenCancel none true).result = none
    ∧ (exec_image_open_dialog oOpenCancel none true).msgboxes =
        [openErrBox oOpenCancel.tr none "" "No such file"] :=
  C9_cancel_reads_empty oOpenCancel none true "No such file" rfl rfl

/-- C10: each of the three dialog helpers saves the `sys` stream triple on
entry, has `sys.stdout = None` (and the other two streams unchanged) while
its toolkit dialog call runs, restores the saved triple right after the
dialog returns, and on every normal return leaves all three streams equal to
their entry values. -/
theorem C10_streams_restored :
    (∀ (o : SaveOracle) (data : NDArray) (template : Option Nat)
        (app_name : Option String),
      (exec_image_save_dialog o data template app_name).streamsAtDialog
          = { o.streams with stdout := none }
      ∧ (exec_image_save_dialog o data template app_name).streamsAfterDialog
          = o.streams
      ∧ (exec_image_save_dialog o data template app_name).streamsAtReturn
          = o.streams)
    ∧ (∀ (o : OpenOracle) (app_name : Option String) (tg : Bool),
      (exec_image_open_dialog o app_name tg).streamsAtDialog
          = { o.streams with stdout := none }
      ∧ (exec_image_open_dialog o app_name tg).streamsAfterDialog = o.streams
      ∧ (exec_image_open_dialog o app_name tg).streamsAtReturn = o.streams)
    ∧ (∀ (o : MultiOracle) (app_name : Option String) (tg : Bool),
      (exec_images_open_dialog o app_name tg).streamsAtDialog
          = { o.streams with stdout := none }
      ∧ (exec_images_open_dialog o app_name tg).streamsAfterDialog = o.streams
      ∧ (exec_images_open_dialog o app_name tg).streamsAtReturn = o.streams) :=
  ⟨fun _ _ _ _ => ⟨rfl, rfl, rfl⟩,
   fun _ _ _ => ⟨rfl, rfl, rfl⟩,
   fun _ _ _ => ⟨rfl, rfl, rfl⟩⟩

/-- Every run of the per-file loop satisfies `loopSpec` for its file list,
whatever the incoming `params` / `one4all` / form-index state. -/
theorem imagesLoop_spec (o : MultiOracle) (app_name : Option String)
    (tg : Bool) (RAW multi : Bool) :
    ∀ (fns : List String) (ps : Option RawParams) (o4 : Bool) (fc : Nat),
      loopSpec o app_name tg fns (imagesLoop o app_name tg RAW multi fns ps o4 fc) := by
  intro fns
  induction fns with
  | nil =>
    intro ps o4 fc
    simp [imagesLoop, loopSpec]
  | cons fn rest ih =>
    intro ps o4 fc
    unfold imagesLoop
    by_cases hb : (RAW && (ps.isNone || !o4)) = true
    · simp only [hb, if_true]
      rcases hforms : o.forms fc with _ | f
      · simp [loopSpec]
      · rcases him : o.imread fn tg (some (paramsOfForm f)) with msg | d
        · simp only [him]
          refine ⟨by simp, by simp, by simp [loopSpec], ?_⟩
          intro fn' msg' h
          obtain ⟨rfl, rfl⟩ : fn' = fn ∧ msg' = msg := by
            simpa using h.symm
          simp
        · simp only [him]
          obtain ⟨h1, h2, h3, h4⟩ :=
            ih (some (paramsOfForm f)) (if multi then f.one4all else o4) (fc + 1)
          refine ⟨by simpa using h1, ?_, by simpa using h3, ?_⟩
          · intro pr hpr
            rcases List.mem_cons.mp hpr with rfl | hpr
            · exact ⟨some (paramsOfForm f), him⟩
            · exact h2 pr hpr
          · intro fn' msg' h
            obtain ⟨hbox, hlt⟩ := h4 fn' msg' h
            exact ⟨by simpa using hbox, by simpa using Nat.succ_lt_succ hlt⟩
    · simp only [hb, if_false]
      rcases him : o.imread fn tg ps with msg | d
      · simp only [him]
        refine ⟨by simp, by simp, by simp [loopSpec], ?_⟩
        intro fn' msg' h
        obtain ⟨rfl, rfl⟩ : fn' = fn ∧ msg' = msg := by
          simpa using h.symm
        simp
      · simp only [him]
        obtain ⟨h1, h2, h3, h4⟩ := ih ps o4 fc
        refine ⟨by simpa using h1, ?_, by simpa using h3, ?_⟩
        · intro pr hpr
          rcases List.mem_cons.mp hpr with rfl | hpr
          · exact ⟨ps, him⟩
          · exact h2 pr hpr
        · intro fn' msg' h
          obtain ⟨hbox, hlt⟩ := h4 fn' msg' h
          exact ⟨by simpa using hbox, by simpa using Nat.succ_lt_succ hlt⟩

/-- When the RAW decision is `False`, the per-file loop never presents a
raw-parameter form. -/
theorem imagesLoop_formsCount_notraw (o : MultiOracle) (app_name : Option String)
    (tg multi : Bool) :
    ∀ (fns : List String) (ps : Option RawParams) (o4 : Bool) (fc : Nat),
      (imagesLoop o app_name tg false multi fns ps o4 fc).formsCount = 0 := by
  intro fns
  induction fns with
  | nil => intro ps o4 fc; simp [imagesLoop]
  | cons fn rest ih =>
    intro ps o4 fc
    unfold imagesLoop
    simp only [Bool.false_and, Bool.false_eq_true, if_false]
    rcases him : o.imread fn tg ps with msg | d
    · simp [him]
    · simp [him, ih ps o4 fc]

/-- When the RAW decision is `True` and the loop starts with an empty params
dict on a non-empty file list, at least one raw-parameter form is presented
(at the first file, whatever the oracle answers). -/
theorem imagesLoop_formsCount_raw (o : MultiOracle) (app_name : Option String)
    (tg multi : Bool) (fn : String) (rest : List String) (o4 : Bool) (fc : Nat) :
    1 ≤ (imagesLoop o app_name tg true multi (fn :: rest) none o4 fc).formsCount := by
  unfold imagesLoop
  simp only [Option.isNone_none, Bool.true_and, Bool.true_or, if_true]
  rcases hforms : o.forms fc with _ | f
  · simp
  · rcases him : o.imread fn tg (some (paramsOfForm f)) with msg | d <;> simp [him]

/-- Every `io.imread` call made by the per-file loop carries a non-empty
params dict exactly when the RAW decision holds, provided the incoming
params dict is empty whenever RAW is `False` (which the function
establishes before the loop). -/
theorem imagesLoop_calls_raw (o : MultiOracle) (app_name : Option String)
    (tg multi : Bool) (RAW : Bool) :
    ∀ (fns : List String) (ps : Option RawParams) (o4 : Bool) (fc : Nat),
      (RAW = false → ps = none) →
      ∀ c ∈ (imagesLoop o app_name tg RAW multi fns ps o4 fc).calls,
        c.params.isSome = RAW := by
  intro fns
  induction fns with
  | nil => intro ps o4 fc _ c hc; simp [imagesLoop] at hc
  | cons fn rest ih =>
    intro ps o4 fc hps c hc
    unfold imagesLoop at hc
    by_cases hb : (RAW && (ps.isNone || !o4)) = true
    · have hR : RAW = true := by
        cases RAW
        · exact absurd hb (by simp)
        · rfl
      simp only [hb, if_true] at hc
      rcases hforms : o.forms fc with _ | f <;> simp only [hforms] at hc
      · simp at hc
      · rcases him : o.imread fn tg (some (paramsOfForm f)) with msg | d <;>
          simp only [him] at hc
        · rcases List.mem_singleton.mp hc with rfl
          simp [hR]
        · rcases List.mem_cons.mp hc with rfl | hc
          · simp [hR]
          · exact ih (some (paramsOfForm f)) (if multi then f.one4all else o4)
              (fc + 1) (by simp [hR]) c hc
    · simp only [hb, if_false] at hc
      have hps2 : ps.isSome = RAW := by
        cases hR : RAW with
        | false => rw [hps hR]; rfl
        | true =>
          rcases hn : ps with _ | p
          · rw [hR, hn] at hb
            exact absurd (by simp) hb
          · rfl
      rcases him : o.imread fn tg ps with msg | d <;> simp only [him] at hc
      · rcases List.mem_singleton.mp hc with rfl
        simpa using hps2
      · rcases List.mem_cons.mp hc with rfl | hc
        · simpa using hps2
        · exact ih ps o4 fc hps c hc

/-- Every non-empty params dict passed to `io.imread` by the per-file loop
was built by `paramsOfForm` from some accepted form, provided the incoming
params dict satisfies the same property. -/
theorem imagesLoop_params_origin (o : MultiOracle) (app_name : Option String)
    (tg RAW multi : Bool) :
    ∀ (fns : List String) (ps : Option RawParams) (o4 : Bool) (fc : Nat),
      (∀ p, ps = some p → ∃ i f, o.forms i = some f ∧ p = paramsOfForm f) →
      ∀ c ∈ (imagesLoop o app_name tg RAW multi fns ps o4 fc).calls,
        ∀ p, c.params = some p → ∃ i f, o.forms i = some f ∧ p = paramsOfForm f := by
  intro fns
  induction fns with
  | nil => intro ps o4 fc _ c hc; simp [imagesLoop] at hc
  | cons fn rest ih =>
    intro ps o4 fc hps c hc
    unfold imagesLoop at hc
    by_cases hb : (RAW && (ps.isNone || !o4)) = true
    · simp only [hb, if_true] at hc
      rcases hforms : o.forms fc with _ | f <;> simp only [hforms] at hc
      · simp at hc
      · have hnew : ∀ p, some (paramsOfForm f) = some p →
            ∃ i g, o.forms i = some g ∧ p = paramsOfForm g := by
          intro p hp
          exact ⟨fc, f, hforms, (Option.some_injective _ hp).symm⟩
        rcases him : o.imread fn tg (some (paramsOfForm f)) with msg | d <;>
          simp only [him] at hc
        · rcases List.mem_singleton.mp hc with rfl
          intro p hp
          exact hnew p hp
        · rcases List.mem_cons.mp hc with rfl | hc
          · intro p hp
            exact hnew p hp
          · exact ih (some (paramsOfForm f)) (if multi then f.one4all else o4)
              (fc + 1) hnew c hc
    · simp only [hb, if_false] at hc
      rcases him : o.imread fn tg ps with msg | d <;> simp only [him] at hc
      · rcases List.mem_singleton.mp hc with rfl
        intro p hp
        exact hps p hp
      · rcases List.mem_cons.mp hc with rfl | hc
        · intro p hp
          exact hps p hp
        · exact ih ps o4 fc hps c hc

/-- Every run of the pre-loop-plus-loop phase satisfies `loopSpec`. -/
theorem imagesPre_spec (o : MultiOracle) (app_name : Option String)
    (tg RAW multi : Bool) (fns : List String) :
    loopSpec o app_name tg fns (imagesPre o app_name tg RAW multi fns) := by
  unfold imagesPre
  split
  · rcases hforms : o.forms 0 with _ | f <;> simp only [hforms]
    · simp [loopSpec]
    · exact imagesLoop_spec o app_name tg RAW multi fns (some (paramsOfForm f))
        f.one4all 1
  · exact imagesLoop_spec o app_name tg RAW multi fns none false 0

/-- With a `False` RAW decision, no form is ever presented. -/
theorem imagesPre_formsCount_notraw (o : MultiOracle) (app_name : Option String)
    (tg multi : Bool) (fns : List String) :
    (imagesPre o app_name tg false multi fns).formsCount = 0 := by
  unfold imagesPre
  simp [imagesLoop_formsCount_notraw]

/-- With a `True` RAW decision and a non-empty selection, at least one form
is presented. -/
theorem imagesPre_formsCount_raw (o : MultiOracle) (app_name : Option String)
    (tg multi : Bool) (fn : String) (rest : List String) :
    1 ≤ (imagesPre o app_name tg true multi (fn :: rest)).formsCount := by
  unfold imagesPre
  rcases hm : multi with _ | _
  · simpa using imagesLoop_formsCount_raw o app_name tg false fn rest false 0
  · simp only [Bool.and_true, if_true]
    rcases hforms : o.forms 0 with _ | f <;> simp [hforms]

/-- Every `io.imread` call of the pre-loop-plus-loop phase carries a
non-empty params dict exactly when the RAW decision holds. -/
theorem imagesPre_calls_raw (o : MultiOracle) (app_name : Option String)
    (tg RAW multi : Bool) (fns : List String) :
    ∀ c ∈ (imagesPre o app_name tg RAW multi fns).calls,
      c.params.isSome = RAW := by
  unfold imagesPre
  split
  · next h =>
    have hR : RAW = true := by
      cases RAW
      · exact absurd h (by simp)
      · rfl
    rcases hforms : o.forms 0 with _ | f <;> simp only [hforms]
    · intro c hc; simp at hc
    · intro c hc
      exact imagesLoop_calls_raw o app_name tg multi RAW fns
        (some (paramsOfForm f)) f.one4all 1
        (fun hfalse => absurd (hR ▸ hfalse) (by simp)) c (by simpa using hc)
  · intro c hc
    exact imagesLoop_calls_raw o app_name tg multi RAW fns none false 0
      (fun _ => rfl) c hc

/-- Every non-empty params dict passed to `io.imread` during the
pre-loop-plus-loop phase was built by `paramsOfForm` from an accepted
form. -/
theorem imagesPre_params_origin (o : MultiOracle) (app_name : Option String)
    (tg RAW multi : Bool) (fns : List String) :
    ∀ c ∈ (imagesPre o app_name tg RAW multi fns).calls, ∀ p,
      c.params = some p → ∃ i f, o.forms i = some f ∧ p = paramsOfForm f := by
  unfold imagesPre
  split
  · rcases hforms : o.forms 0 with _ | f <;> simp only [hforms]
    · intro c hc; simp at hc
    · intro c hc
      exact imagesLoop_params_origin o app_name tg RAW multi fns
        (some (paramsOfForm f)) f.one4all 1
        (fun q hq => ⟨0, f, hforms, (Option.some_injective _ hq).symm⟩)
        c (by simpa using hc)
  · intro c hc
    exact imagesLoop_params_origin o app_name tg RAW multi fns none false 0
      (fun q hq => by simp at hq) c hc

/-- On a non-empty selection, `rawFormCond` computes the same Boolean as the
RAW decision inside `exec_images_open_dialog`. -/
theorem rawFormCond_eq (o : MultiOracle) (fn0 : String) (rest : List String)
    (hfn : o.filenames = fn0 :: rest) :
    rawFormCond o =
      (if (splitext fn0).2 == ".bin" || (splitext fn0).2 == ".raw" ||
          (splitext fn0).2 == ".img" || (splitext fn0).2 == ".imd" then
        !(o.isfile ((splitext fn0).1 ++ ".inf"))
      else
        false) := by
  unfold rawFormCond
  rw [hfn]
  rcases h : ((splitext fn0).2 == ".bin" || (splitext fn0).2 == ".raw" ||
      (splitext fn0).2 == ".img" || (splitext fn0).2 == ".imd") with _ | _ <;>
    simp [h]

/-- C5: for a non-empty selection, `exec_images_open_dialog` yields
`(filename, data)` pairs for an initial segment of the selected files in
selection order, each data value produced by a successful `io.imread` of its
filename; a run stopping for neither a cancelled form nor a read error
yields one pair per file, and a run stopped by a read error shows exactly
the critical box for the failing file and stops yielding early (see
`loopSpec`). -/
theorem C5_yield_per_file (o : MultiOracle) (app_name : Option String)
    (tg : Bool) (hne : o.filenames ≠ []) :
    loopSpec o app_name tg o.filenames
      (loopView (exec_images_open_dialog o app_name tg)) := by
  unfold exec_images_open_dialog loopView
  rcases hfn : o.filenames with _ | ⟨fn0, rest⟩
  · exact absurd hfn hne
  · simp only [hfn]
    exact imagesPre_spec o app_name tg _ _ (fn0 :: rest)

/-- C5 witness: the theorem applied at a concrete two-file non-raw
selection with both reads succeeding. -/
theorem C5_yield_per_file_w :
    loopSpec oMultiPng none true oMultiPng.filenames
      (loopView (exec_images_open_dialog oMultiPng none true)) :=
  C5_yield_per_file oMultiPng none true (by decide)

/-- C6: a raw-parameter form is presented during `exec_images_open_dialog`
exactly when `rawFormCond` holds — at least one file selected, the FIRST
selected filename's extension in `{.bin, .raw, .img, .imd}`, and no
companion `.inf` file for that first filename — and this one decision,
computed from the first file only, applies to every selected file: every
`io.imread` call of the run carries a non-empty params dict exactly when
`rawFormCond` holds. -/
theorem C6_raw_form_gate (o : MultiOracle) (app_name : Option String)
    (tg : Bool) :
    (1 ≤ (exec_images_open_dialog o app_name tg).formsCount
      ↔ rawFormCond o = true)
    ∧ ((exec_images_open_dialog o app_name tg).calls.all
        (fun c => c.params.isSome == rawFormCond o)) = true := by
  unfold exec_images_open_dialog
  rcases hfn : o.filenames with _ | ⟨fn0, rest⟩
  · constructor
    · simp [rawFormCond, hfn]
    · simp [hfn]
  · rw [rawFormCond_eq o fn0 rest hfn]
    simp only [hfn]
    generalize ((if (splitext fn0).2 == ".bin" || (splitext fn0).2 == ".raw" ||
        (splitext fn0).2 == ".img" || (splitext fn0).2 == ".imd" then
      !(o.isfile ((splitext fn0).1 ++ ".inf"))
    else
      false) : Bool) = RAW
    constructor
    · rcases RAW with _ | _
      · simp [imagesPre_formsCount_notraw]
      · simp [imagesPre_formsCount_raw]
    · rw [List.all_eq_true]
      intro c hc
      have := imagesPre_calls_raw o app_name tg RAW
        (decide (1 < (fn0 :: rest).length)) (fn0 :: rest) c (by simpa using hc)
      simp [this]

/-- C7: every non-empty params dict that `exec_images_open_dialog` passes to
`io.imread` was built from some accepted raw-parameter form: its `offset`
entry is the form's manual offset when `manual_switch` is set and the chosen
mode string otherwise, and its `dtype` entry is the numpy dtype named by the
form's dtype choice, byte order swapped exactly when `endian_switch` is
`False`. -/
theorem C7_params_from_form (o : MultiOracle) (app_name : Option String)
    (tg : Bool) (c : ImreadCall)
    (hc : c ∈ (exec_images_open_dialog o app_name tg).calls) (p : RawParams)
    (hp : c.params = some p) :
    ∃ i f, o.forms i = some f
      ∧ p.offset = (if f.manual_switch then OffsetVal.manual f.m_offset
                    else OffsetVal.mode f.mode)
      ∧ p.dtype.name = f.dtype
      ∧ p.dtype.swapped = !f.endian_switch := by
  have main : ∃ i f, o.forms i = some f ∧ p = paramsOfForm f := by
    unfold exec_images_open_dialog at hc
    rcases hfn : o.filenames with _ | ⟨fn0, rest⟩ <;> simp only [hfn] at hc
    · simp at hc
    · exact imagesPre_params_origin o app_name tg _ _ (fn0 :: rest) c hc p hp
  obtain ⟨i, f, hif, rfl⟩ := main
  exact ⟨i, f, hif, rfl, rfl, rfl⟩

/-- C7 witness: the theorem applied at a concrete raw run whose first
`io.imread` call carries the params built from the accepted form (manual
offset 7, dtype `uint16`, little-endian kept native). -/
theorem C7_params_from_form_w :
    ∃ i f, oMultiRaw.forms i = some f
      ∧ (⟨OffsetVal.manual 7, ⟨"uint16", false⟩⟩ : RawParams).offset
          = (if f.manual_switch then OffsetVal.manual f.m_offset
             else OffsetVal.mode f.mode)
      ∧ (⟨OffsetVal.manual 7, ⟨"uint16", false⟩⟩ : RawParams).dtype.name = f.dtype
      ∧ (⟨OffsetVal.manual 7, ⟨"uint16", false⟩⟩ : RawParams).dtype.swapped
          = !f.endian_switch :=
  C7_params_from_form oMultiRaw none true
    ⟨"a.bin", true, some ⟨OffsetVal.manual 7, ⟨"uint16", false⟩⟩⟩ (by decide)
    ⟨OffsetVal.manual 7, ⟨"uint16", false⟩⟩ rfl
